import Mathlib

/-!
Verification of the tcmu-runner SCSI emulation layer (src/api.c) and the
per-device recovery / lock state machine (src/tcmur_device.c), via a shallow
embedding: byte buffers are lists of naturals (each < 256 where it matters),
machine-integer arithmetic is Nat with explicit `% 2^w`, and the mutex-guarded
device state record is an explicit structure with pure transition functions.
-/

/-- Return statuses of the emulation functions (the TCMU_STS_* constants). -/
inductive TcmuStatus where
  | OK
  | INVALID_CDB
  | INVALID_PARAM_LIST
  | INVALID_PARAM_LIST_LEN
  | HW_ERR
  | NO_RESOURCE
  | PASSTHROUGH_ERR
deriving DecidableEq, Repr

/-- lock_state enumeration (TCMUR_DEV_LOCK_*). -/
inductive LockState where
  | unlocked
  | locking
  | locked
deriving DecidableEq, Repr

/-- The mutable fields of `struct tcmur_device` that the recovery/lock state
machine touches: the flags bitmask (three named bits) and lock_state. -/
structure TcmurDevice where
  inRecovery : Bool
  shuttingDown : Bool
  isOpen : Bool
  lockState : LockState
deriving DecidableEq, Repr

/-- errno EBUSY. -/
def EBUSY : Int := 16

/-- tcmu_reopen_dev (src/tcmur_device.c:111-124): under the state mutex, if
TCMUR_DEV_FLAG_IN_RECOVERY is already set return -EBUSY without touching the
state; otherwise set the flag and run __tcmu_reopen_dev.  The internal reopen
sequence calls blocking external collaborators (queue drain, backend
open/close), so it is a parameter here. -/
def tcmu_reopen_dev (internal : TcmurDevice → Int × TcmurDevice)
    (s : TcmurDevice) : Int × TcmurDevice :=
  if s.inRecovery then (-EBUSY, s)
  else internal { s with inRecovery := true }

/-- tcmu_notify_conn_lost (src/tcmur_device.c:179-202): under the state mutex,
if TCMUR_DEV_FLAG_IN_RECOVERY is set do nothing; otherwise try to spawn the
recovery thread (spawnOk is whether pthread_create succeeds) and set the flag
only on success.  The Bool result records whether a recovery task was spawned
by this call. -/
def tcmu_notify_conn_lost (spawnOk : Bool) (s : TcmurDevice) :
    TcmurDevice × Bool :=
  if s.inRecovery then (s, false)
  else if spawnOk then ({ s with inRecovery := true }, true)
  else (s, false)

/-- tcmu_notify_lock_lost (src/tcmur_device.c:211-224): under the state mutex,
set lock_state to UNLOCKED unless it is currently LOCKING. -/
def tcmu_notify_lock_lost (s : TcmurDevice) : TcmurDevice :=
  if s.lockState ≠ LockState.locking then { s with lockState := LockState.unlocked }
  else s

/-- C1: recovery is single-flight per device: when the IN_RECOVERY flag is set,
tcmu_reopen_dev returns -EBUSY with the whole state (flags and lock_state)
unchanged, whatever the internal reopen sequence would do, and
tcmu_notify_conn_lost is a no-op that spawns no second recovery task, whether
or not thread creation would succeed. -/
theorem recovery_single_flight (internal : TcmurDevice → Int × TcmurDevice)
    (spawnOk : Bool) (s : TcmurDevice) (h : s.inRecovery = true) :
    tcmu_reopen_dev internal s = (-EBUSY, s) ∧
    tcmu_notify_conn_lost spawnOk s = (s, false) := by
  constructor
  · simp [tcmu_reopen_dev, h]
  · simp [tcmu_notify_conn_lost, h]

/-- Witness for C1 at a concrete in-recovery state. -/
theorem recovery_single_flight_witness :
    tcmu_reopen_dev (fun s => (0, s)) ⟨true, false, true, LockState.locked⟩ =
      (-EBUSY, ⟨true, false, true, LockState.locked⟩) ∧
    tcmu_notify_conn_lost true ⟨true, false, true, LockState.locked⟩ =
      (⟨true, false, true, LockState.locked⟩, false) :=
  recovery_single_flight (fun s => (0, s)) true
    ⟨true, false, true, LockState.locked⟩ rfl

/-- C9: tcmu_notify_lock_lost sets lock_state to Unlocked when it is Unlocked
or Locked, leaves it unchanged when it is Locking, and never touches the flags
bitmask (IN_RECOVERY, SHUTTING_DOWN, IS_OPEN). -/
theorem notify_lock_lost_spec (s : TcmurDevice) :
    ((s.lockState = LockState.unlocked ∨ s.lockState = LockState.locked) →
      (tcmu_notify_lock_lost s).lockState = LockState.unlocked) ∧
    (s.lockState = LockState.locking → tcmu_notify_lock_lost s = s) ∧
    (tcmu_notify_lock_lost s).inRecovery = s.inRecovery ∧
    (tcmu_notify_lock_lost s).shuttingDown = s.shuttingDown ∧
    (tcmu_notify_lock_lost s).isOpen = s.isOpen := by
  cases h : s.lockState <;> simp [tcmu_notify_lock_lost, h]

/-- Witness for C9 at a concrete locked state. -/
theorem notify_lock_lost_witness :
    (tcmu_notify_lock_lost ⟨false, false, true, LockState.locked⟩).lockState =
      LockState.unlocked ∧
    (tcmu_notify_lock_lost ⟨false, false, true, LockState.locked⟩).inRecovery =
      false :=
  ⟨(notify_lock_lost_spec ⟨false, false, true, LockState.locked⟩).1 (Or.inr rfl),
   (notify_lock_lost_spec ⟨false, false, true, LockState.locked⟩).2.2.1⟩

/-! ## Big-endian byte writers (put_unaligned_beN / htobeN + memcpy).
Each produces the N-byte big-endian encoding of the value modulo 2^(8N),
matching C truncation of a wider value to the field width. -/

def be16Bytes (v : Nat) : List Nat :=
  [v / 2 ^ 8 % 256, v % 256]

def be24Bytes (v : Nat) : List Nat :=
  [v / 2 ^ 16 % 256, v / 2 ^ 8 % 256, v % 256]

def be32Bytes (v : Nat) : List Nat :=
  [v / 2 ^ 24 % 256, v / 2 ^ 16 % 256, v / 2 ^ 8 % 256, v % 256]

def be64Bytes (v : Nat) : List Nat :=
  [v / 2 ^ 56 % 256, v / 2 ^ 48 % 256, v / 2 ^ 40 % 256, v / 2 ^ 32 % 256,
   v / 2 ^ 24 % 256, v / 2 ^ 16 % 256, v / 2 ^ 8 % 256, v % 256]

/-- tcmu_emulate_read_capacity_10 (src/api.c:767-798): 8-byte response, bytes
0-3 big-endian last LBA (num_lbas - 1 in uint64 arithmetic, truncated to 32
bits) when num_lbas < 2^32, else the 0xffffffff use-RC16 marker; bytes 4-7
big-endian block size.  num_lbas is a uint64_t, so the subtraction is taken
mod 2^64. -/
def tcmu_emulate_read_capacity_10 (num_lbas block_size : Nat) :
    TcmuStatus × List Nat :=
  let val32 : Nat :=
    if num_lbas < 2 ^ 32 then (num_lbas + 2 ^ 64 - 1) % 2 ^ 64
    else 0xffffffff
  (TcmuStatus.OK, be32Bytes val32 ++ be32Bytes block_size)

/-- tcmu_emulate_read_capacity_16 (src/api.c:800-841): 32-byte response, bytes
0-7 big-endian num_lbas - 1 (uint64 arithmetic), bytes 8-11 block size, byte
14 = 0x80 (LBPME) | 0x40 (LBPRZ) = 0xc0, all else zero. -/
def tcmu_emulate_read_capacity_16 (num_lbas block_size : Nat) :
    TcmuStatus × List Nat :=
  (TcmuStatus.OK,
   be64Bytes ((num_lbas + 2 ^ 64 - 1) % 2 ^ 64) ++ be32Bytes block_size ++
     [0, 0, 0xc0] ++ List.replicate 17 0)

/-- C4: for num_lbas ≥ 1, READ CAPACITY 10 returns big-endian num_lbas - 1 in
bytes 0-3 when num_lbas < 2^32 and 0xffffffff otherwise, followed by the
32-bit big-endian block size; READ CAPACITY 16 always returns the exact 64-bit
big-endian num_lbas - 1 in bytes 0-7, the block size in bytes 8-11, and byte
14 = 0xc0 (LBPME and LBPRZ); in particular num_lbas = 5, block_size = 512
gives last-LBA 4 and block size 512 from READ CAPACITY 10. -/
theorem read_capacity_spec (num_lbas block_size : Nat)
    (h1 : 1 ≤ num_lbas) (h2 : num_lbas < 2 ^ 64) :
    (tcmu_emulate_read_capacity_10 num_lbas block_size).2 =
      be32Bytes (if num_lbas < 2 ^ 32 then num_lbas - 1 else 0xffffffff) ++
        be32Bytes block_size ∧
    ((tcmu_emulate_read_capacity_16 num_lbas block_size).2.take 8 =
      be64Bytes (num_lbas - 1) ∧
     ((tcmu_emulate_read_capacity_16 num_lbas block_size).2.drop 8).take 4 =
      be32Bytes block_size ∧
     (tcmu_emulate_read_capacity_16 num_lbas block_size).2.getD 14 0 = 0xc0) ∧
    (tcmu_emulate_read_capacity_10 5 512).2 = be32Bytes 4 ++ be32Bytes 512 := by
  have hmod : (num_lbas + 2 ^ 64 - 1) % 2 ^ 64 = num_lbas - 1 := by omega
  have hmod' : (num_lbas + 18446744073709551615) % 18446744073709551616 =
      num_lbas - 1 := by omega
  refine ⟨?_, ⟨?_, ?_, ?_⟩, ?_⟩
  · simp only [tcmu_emulate_read_capacity_10, hmod]
  · simp only [tcmu_emulate_read_capacity_16]
    rw [hmod]
    simp [be64Bytes, be32Bytes]
  · simp [tcmu_emulate_read_capacity_16, be64Bytes, be32Bytes]
  · simp [tcmu_emulate_read_capacity_16, be64Bytes, be32Bytes]
  · rfl

/-- Witness for C4 at num_lbas = 5, block_size = 512. -/
theorem read_capacity_spec_witness :
    (tcmu_emulate_read_capacity_10 5 512).2 =
      be32Bytes (if (5 : Nat) < 2 ^ 32 then 5 - 1 else 0xffffffff) ++
        be32Bytes 512 :=
  (read_capacity_spec 5 512 (by decide) (by norm_num)).1

/-- C10: a zero block count is not guarded: the count - 1 subtraction wraps,
so READ CAPACITY 10 writes last-LBA 0xffffffff (indistinguishable from the
use-RC16 marker), READ CAPACITY 16 writes last-LBA 2^64 - 1, and both still
return OK rather than an error. -/
theorem read_capacity_zero_lbas (block_size : Nat) :
    (tcmu_emulate_read_capacity_10 0 block_size).1 = TcmuStatus.OK ∧
    (tcmu_emulate_read_capacity_10 0 block_size).2.take 4 =
      be32Bytes 0xffffffff ∧
    (tcmu_emulate_read_capacity_16 0 block_size).1 = TcmuStatus.OK ∧
    (tcmu_emulate_read_capacity_16 0 block_size).2.take 8 =
      be64Bytes (2 ^ 64 - 1) := by
  refine ⟨rfl, ?_, rfl, ?_⟩
  · simp [tcmu_emulate_read_capacity_10, be32Bytes]
  · simp [tcmu_emulate_read_capacity_16, be64Bytes, be32Bytes]

/-- errno EINVAL. -/
def EINVAL : Int := 22

/-- tcmu_get_cdb_length (src/api.c:32-61): dispatch on the group code, bits
7-5 of cdb[0].  The CDB is a byte accessor (each byte < 256). -/
def tcmu_get_cdb_length (cdb : Nat → Nat) : Int :=
  let group_code := cdb 0 / 32
  if group_code = 0 then 6
  else if group_code = 1 then 10
  else if group_code = 2 then 10
  else if group_code = 3 then
    if cdb 0 = 0x7f then (8 : Int) + cdb 7
    else -EINVAL
  else if group_code = 4 then 16
  else if group_code = 5 then 12
  else -EINVAL

/-- C5: tcmu_get_cdb_length is determined solely by bits 7-5 of byte 0 (plus
byte 7 for group 3): groups 0,1,2,4,5 give 6,10,10,16,12; group 3 gives
8 + cdb[7] exactly when cdb[0] = 0x7f and otherwise -EINVAL; groups 6 and 7
always give -EINVAL. -/
theorem cdb_length_spec (cdb : Nat → Nat) (h : cdb 0 < 256) :
    (cdb 0 / 32 = 0 → tcmu_get_cdb_length cdb = 6) ∧
    ((cdb 0 / 32 = 1 ∨ cdb 0 / 32 = 2) → tcmu_get_cdb_length cdb = 10) ∧
    (cdb 0 / 32 = 4 → tcmu_get_cdb_length cdb = 16) ∧
    (cdb 0 / 32 = 5 → tcmu_get_cdb_length cdb = 12) ∧
    (cdb 0 / 32 = 3 →
      ((tcmu_get_cdb_length cdb = 8 + (cdb 7 : Int)) ↔ cdb 0 = 0x7f) ∧
      (cdb 0 ≠ 0x7f → tcmu_get_cdb_length cdb = -EINVAL)) ∧
    ((cdb 0 / 32 = 6 ∨ cdb 0 / 32 = 7) → tcmu_get_cdb_length cdb = -EINVAL) := by
  refine ⟨?_, ?_, ?_, ?_, ?_, ?_⟩
  · intro hg; simp [tcmu_get_cdb_length, hg]
  · rintro (hg | hg) <;> simp [tcmu_get_cdb_length, hg]
  · intro hg; simp [tcmu_get_cdb_length, hg]
  · intro hg; simp [tcmu_get_cdb_length, hg]
  · intro hg
    by_cases h7 : cdb 0 = 0x7f
    · refine ⟨⟨fun _ => h7, fun _ => ?_⟩, fun hne => absurd h7 hne⟩
      simp [tcmu_get_cdb_length, hg, h7]
    · have hres : tcmu_get_cdb_length cdb = -EINVAL := by
        simp [tcmu_get_cdb_length, hg, h7]
      refine ⟨⟨fun hr => ?_, fun hc => absurd hc h7⟩, fun _ => hres⟩
      rw [hres] at hr
      simp only [EINVAL] at hr
      omega
  · rintro (hg | hg) <;> simp [tcmu_get_cdb_length, hg]

/-- Witness for C5 at the concrete CDB 0x7f 0 0 0 0 0 0 5 (group 3,
variable-length, extra length 5): the decoded length is 8 + 5. -/
theorem cdb_length_spec_witness :
    tcmu_get_cdb_length (fun i => if i = 0 then 0x7f else if i = 7 then 5
      else 0) = 8 + ((5 : Nat) : Int) :=
  ((cdb_length_spec (fun i => if i = 0 then 0x7f else if i = 7 then 5 else 0)
    (by decide)).2.2.2.2.1 (by decide)).1.mpr (by decide)

/-! ## IOVector copy primitives (src/api.c:237-292).
An iovec is a list of segments, each segment its current byte content; iov_cnt
is carried separately, as in the C signatures. -/

/-- Total length of the first iov_cnt segments (tcmu_iovec_length). -/
def iovTotal (segs : List (List Nat)) (iov_cnt : Nat) : Nat :=
  ((segs.take iov_cnt).map List.length).sum

/-- tcmu_memcpy_into_iovec (src/api.c:237-262): copy up to len bytes of src
into the segments, truncating rather than overrunning.  Returns the bytes
copied and the new content of every segment. -/
def tcmu_memcpy_into_iovec : List (List Nat) → Nat → List Nat → Nat →
    Nat × List (List Nat)
  | [], _, _, _ => (0, [])
  | segs, 0, _, _ => (0, segs)
  | seg :: rest, iov_cnt + 1, src, len =>
    if len = 0 then (0, seg :: rest)
    else
      let to_copy := min seg.length len
      let r := tcmu_memcpy_into_iovec rest iov_cnt (src.drop to_copy) (len - to_copy)
      (to_copy + r.1, (src.take to_copy ++ seg.drop to_copy) :: r.2)

/-- tcmu_memcpy_from_iovec (src/api.c:267-292): copy up to len bytes out of
the segments into a flat destination, truncating rather than overrunning.
Returns the bytes copied and the destination bytes written. -/
def tcmu_memcpy_from_iovec : List (List Nat) → Nat → Nat → Nat × List Nat
  | [], _, _ => (0, [])
  | _ :: _, 0, _ => (0, [])
  | seg :: rest, iov_cnt + 1, len =>
    if len = 0 then (0, [])
    else
      let to_copy := min seg.length len
      let r := tcmu_memcpy_from_iovec rest iov_cnt (len - to_copy)
      (to_copy + r.1, seg.take to_copy ++ r.2)

lemma tcmu_memcpy_into_iovec_copied (segs : List (List Nat)) :
    ∀ iov_cnt src len,
      (tcmu_memcpy_into_iovec segs iov_cnt src len).1 =
        min len (iovTotal segs iov_cnt) := by
  induction segs with
  | nil => intro iov_cnt src len; cases iov_cnt <;> simp [tcmu_memcpy_into_iovec, iovTotal]
  | cons seg rest ih =>
    intro iov_cnt src len
    cases iov_cnt with
    | zero => simp [tcmu_memcpy_into_iovec, iovTotal]
    | succ n =>
      by_cases hl : len = 0
      · simp [tcmu_memcpy_into_iovec, hl]
      · simp only [tcmu_memcpy_into_iovec, if_neg hl, ih, iovTotal,
          List.take_succ_cons, List.map_cons, List.sum_cons]
        omega

lemma tcmu_memcpy_from_iovec_copied (segs : List (List Nat)) :
    ∀ iov_cnt len,
      (tcmu_memcpy_from_iovec segs iov_cnt len).1 =
        min len (iovTotal segs iov_cnt) := by
  induction segs with
  | nil => intro iov_cnt len; cases iov_cnt <;> simp [tcmu_memcpy_from_iovec, iovTotal]
  | cons seg rest ih =>
    intro iov_cnt len
    cases iov_cnt with
    | zero => simp [tcmu_memcpy_from_iovec, iovTotal]
    | succ n =>
      by_cases hl : len = 0
      · simp [tcmu_memcpy_from_iovec, hl]
      · simp only [tcmu_memcpy_from_iovec, if_neg hl, ih, iovTotal,
          List.take_succ_cons, List.map_cons, List.sum_cons]
        omega

lemma tcmu_memcpy_into_iovec_len_zero (segs : List (List Nat)) (iov_cnt : Nat)
    (src : List Nat) :
    (tcmu_memcpy_into_iovec segs iov_cnt src 0).2 = segs := by
  cases segs <;> cases iov_cnt <;> simp [tcmu_memcpy_into_iovec]

lemma tcmu_memcpy_from_iovec_len_zero (segs : List (List Nat)) (iov_cnt : Nat) :
    tcmu_memcpy_from_iovec segs iov_cnt 0 = (0, []) := by
  cases segs <;> cases iov_cnt <;> simp [tcmu_memcpy_from_iovec]

lemma tcmu_memcpy_into_iovec_flatten (segs : List (List Nat)) :
    ∀ iov_cnt src len, len ≤ src.length →
      (tcmu_memcpy_into_iovec segs iov_cnt src len).2.flatten =
        src.take ((tcmu_memcpy_into_iovec segs iov_cnt src len).1) ++
          segs.flatten.drop ((tcmu_memcpy_into_iovec segs iov_cnt src len).1) := by
  induction segs with
  | nil =>
    intro iov_cnt src len _
    cases iov_cnt <;> simp [tcmu_memcpy_into_iovec]
  | cons seg rest ih =>
    intro iov_cnt src len hsrc
    cases iov_cnt with
    | zero => simp [tcmu_memcpy_into_iovec]
    | succ n =>
      by_cases hl : len = 0
      · simp [tcmu_memcpy_into_iovec, hl]
      · rcases Nat.le_total seg.length len with hle | hle
        · have hmin : min seg.length len = seg.length := by omega
          have hrec := ih n (src.drop seg.length) (len - seg.length)
            (by simp; omega)
          simp only [tcmu_memcpy_into_iovec, if_neg hl, hmin, List.flatten_cons,
            List.drop_length, List.append_nil, hrec, List.take_add,
            List.append_assoc]
          rw [← List.drop_drop, List.drop_left]
        · have hmin : min seg.length len = len := by omega
          have hz1 := tcmu_memcpy_into_iovec_copied rest n (src.drop len) 0
          have hz2 := tcmu_memcpy_into_iovec_len_zero rest n (src.drop len)
          simp only [tcmu_memcpy_into_iovec, if_neg hl, hmin, Nat.sub_self,
            List.flatten_cons, hz1, hz2, Nat.zero_min, Nat.min_zero,
            Nat.add_zero, List.append_assoc]
          rw [List.drop_append_of_le_length hle]


lemma tcmu_memcpy_from_iovec_bytes (segs : List (List Nat)) :
    ∀ iov_cnt len,
      (tcmu_memcpy_from_iovec segs iov_cnt len).2 =
        ((segs.take iov_cnt).flatten).take
          ((tcmu_memcpy_from_iovec segs iov_cnt len).1) := by
  induction segs with
  | nil => intro iov_cnt len; cases iov_cnt <;> simp [tcmu_memcpy_from_iovec]
  | cons seg rest ih =>
    intro iov_cnt len
    cases iov_cnt with
    | zero => simp [tcmu_memcpy_from_iovec]
    | succ n =>
      by_cases hl : len = 0
      · simp [tcmu_memcpy_from_iovec, hl]
      · rcases Nat.le_total seg.length len with hle | hle
        · have hmin : min seg.length len = seg.length := by omega
          have hrec := ih n (len - seg.length)
          simp only [tcmu_memcpy_from_iovec, if_neg hl, hmin, List.take_succ_cons,
            List.flatten_cons, hrec, List.take_append_eq_append_take,
            List.take_length, Nat.add_sub_cancel_left]
          congr 1
          exact (List.take_of_length_le (by omega)).symm
        · have hmin : min seg.length len = len := by omega
          have hz := tcmu_memcpy_from_iovec_len_zero rest n
          simp only [tcmu_memcpy_from_iovec, if_neg hl, hmin, Nat.sub_self, hz,
            List.take_succ_cons, List.flatten_cons, Nat.add_zero,
            List.take_append_eq_append_take]
          rw [Nat.sub_eq_zero_of_le hle]
          simp

/-- C6: tcmu_memcpy_into_iovec and tcmu_memcpy_from_iovec each transfer
exactly min(len, total length of the first iov_cnt segments) bytes,
truncating rather than overrunning when the iovec set is shorter than len;
byte i of the transfer is byte i of the flat buffer and byte i of the
concatenated segments: into-copy replaces the first copied bytes of the
concatenated segments with the matching src prefix and leaves the rest,
from-copy writes exactly the first copied bytes of the concatenation. -/
theorem memcpy_iovec_spec (src : List Nat) (len : Nat)
    (segs : List (List Nat)) (iov_cnt : Nat) (hsrc : len ≤ src.length) :
    (tcmu_memcpy_into_iovec segs iov_cnt src len).1 =
      min len (iovTotal segs iov_cnt) ∧
    (tcmu_memcpy_into_iovec segs iov_cnt src len).2.flatten =
      src.take (min len (iovTotal segs iov_cnt)) ++
        segs.flatten.drop (min len (iovTotal segs iov_cnt)) ∧
    (tcmu_memcpy_from_iovec segs iov_cnt len).1 =
      min len (iovTotal segs iov_cnt) ∧
    (tcmu_memcpy_from_iovec segs iov_cnt len).2 =
      ((segs.take iov_cnt).flatten).take (min len (iovTotal segs iov_cnt)) := by
  have h1 := tcmu_memcpy_into_iovec_copied segs iov_cnt src len
  have h2 := tcmu_memcpy_into_iovec_flatten segs iov_cnt src len hsrc
  have h3 := tcmu_memcpy_from_iovec_copied segs iov_cnt len
  have h4 := tcmu_memcpy_from_iovec_bytes segs iov_cnt len
  rw [h1] at h2
  rw [h3] at h4
  exact ⟨h1, h2, h3, h4⟩

/-- Witness for C6: copying 5 bytes into/from a 2-segment iovec holding only
3 bytes transfers exactly 3 bytes. -/
theorem memcpy_iovec_spec_witness :
    (tcmu_memcpy_into_iovec [[9, 9], [9]] 2 [1, 2, 3, 4, 5] 5).1 =
      min 5 (iovTotal [[9, 9], [9]] 2) ∧
    (tcmu_memcpy_into_iovec [[9, 9], [9]] 2 [1, 2, 3, 4, 5] 5).2.flatten =
      [1, 2, 3, 4, 5].take (min 5 (iovTotal [[9, 9], [9]] 2)) ++
        ([[9, 9], [9]] : List (List Nat)).flatten.drop
          (min 5 (iovTotal [[9, 9], [9]] 2)) ∧
    (tcmu_memcpy_from_iovec [[9, 9], [9]] 2 5).1 =
      min 5 (iovTotal [[9, 9], [9]] 2) ∧
    (tcmu_memcpy_from_iovec [[9, 9], [9]] 2 5).2 =
      ((([[9, 9], [9]] : List (List Nat)).take 2).flatten).take
        (min 5 (iovTotal [[9, 9], [9]] 2)) :=
  memcpy_iovec_spec [1, 2, 3, 4, 5] 5 [[9, 9], [9]] 2 (by decide)

/-! ## EVPD page 0x83 designator lengths (src/api.c:517-564). -/

/-- The designator-length computation shared by the SCSI-name-string
descriptor (src/api.c:523-538) and the target-device designator
(src/api.c:548-563) in tcmu_emulate_evpd_inquiry: snlen is the snprintf
return value (the untruncated formatted length); the code adds one for the
NUL terminator, pads to a multiple of four with padding = (-len) & 3 (which
for 0 < len equals (4 - len % 4) % 4), and caps the result at 256. -/
def scsi_name_desig_len (snlen : Nat) : Nat :=
  let len := snlen + 1
  let padding := (4 - len % 4) % 4
  let len := if padding ≠ 0 then len + padding else len
  if len > 256 then 256 else len

/-- Designator length of the SCSI-name-string descriptor: the formatted name
is "{wwn},t,0x{tpgt:04x}", 9 characters more than the wwn (tpgt is a
uint16_t, printed as exactly 4 hex digits). -/
def evpd83_scsi_name_desig_len (wwnLen : Nat) : Nat :=
  scsi_name_desig_len (wwnLen + 9)

/-- Designator length of the target-device designator: the formatted name is
the wwn alone. -/
def evpd83_target_dev_desig_len (wwnLen : Nat) : Nat :=
  scsi_name_desig_len wwnLen

lemma scsi_name_desig_len_mul4_le256 (snlen : Nat) :
    4 ∣ scsi_name_desig_len snlen ∧ scsi_name_desig_len snlen ≤ 256 := by
  simp only [scsi_name_desig_len]
  split_ifs <;> omega

/-- C7: for a wwn of any length (including ones whose formatted name exceeds
the local buffer, since snprintf reports the untruncated length), the
designator-length fields of both the SCSI-name-string descriptor and the
target-device designator in the EVPD 0x83 response are non-negative multiples
of 4 and at most 256. -/
theorem evpd83_desig_len_spec (wwnLen : Nat) :
    (4 ∣ evpd83_scsi_name_desig_len wwnLen ∧
      evpd83_scsi_name_desig_len wwnLen ≤ 256) ∧
    (4 ∣ evpd83_target_dev_desig_len wwnLen ∧
      evpd83_target_dev_desig_len wwnLen ≤ 256) :=
  ⟨scsi_name_desig_len_mul4_le256 (wwnLen + 9),
   scsi_name_desig_len_mul4_le256 wwnLen⟩

/-! ## MODE SENSE / MODE SELECT emulation (src/api.c:843-1247).
The response buffer is a list of bytes of fixed length; a write at an offset
replaces the addressed bytes, clipped at the end of the buffer. -/

/-- Device accessors used by the mode-page handlers and block descriptors. -/
structure ModeDev where
  blockSize : Nat
  numLbas : Nat
  writeCacheEnabled : Bool

/-- Write bytes into buf at offset off, clipping at the end of buf. -/
def listWrite (buf : List Nat) (off : Nat) (bytes : List Nat) : List Nat :=
  buf.take off ++ bytes.take (buf.length - off) ++ buf.drop (off + bytes.length)

lemma listWrite_length (buf : List Nat) (off : Nat) (bytes : List Nat) :
    (listWrite buf off bytes).length = buf.length := by
  simp [listWrite]
  omega

lemma listWrite_zero_prefix (buf : List Nat) (bytes : List Nat)
    (h : bytes.length ≤ buf.length) :
    (listWrite buf 0 bytes).take bytes.length = bytes := by
  simp only [listWrite, List.take_zero, List.nil_append, Nat.sub_zero, Nat.zero_add,
    List.take_of_length_le h]
  rw [List.take_append_eq_append_take]
  simp

/-- handle_rwrecovery_page (src/api.c:859-870): 12-byte body, page 0x1,
page length 0xa. -/
def handle_rwrecovery_page : List Nat :=
  [0x1, 0xa] ++ List.replicate 10 0

/-- handle_cache_page (src/api.c:872-890): 20-byte body, page 0x8, page
length 0x12, WCE bit mirroring the device's write-cache flag. -/
def handle_cache_page (dev : ModeDev) : List Nat :=
  [0x8, 0x12, if dev.writeCacheEnabled then 0x4 else 0] ++ List.replicate 17 0

/-- handle_control_page (src/api.c:892-946): 12-byte body, page 0xa, page
length 0xa, GLTSD, TAS, busy timeout 0xffff. -/
def handle_control_page : List Nat :=
  [0xa, 0xa, 0x2, 0, 0, 0x40, 0, 0, 0xff, 0xff, 0, 0]

/-- One entry of modesense_handlers (src/api.c:949-957): the body function
produces the full page body; its length is the handler's return value, and
copy_to_response_buf truncates the write to the space left. -/
structure MSHandler where
  page : Nat
  subpage : Nat
  body : ModeDev → List Nat

/-- modesense_handlers (src/api.c:953-957). -/
def modesense_handlers : List MSHandler :=
  [⟨0x1, 0, fun _ => handle_rwrecovery_page⟩,
   ⟨0x8, 0, handle_cache_page⟩,
   ⟨0xa, 0, fun _ => handle_control_page⟩]

/-- Assembly state of tcmu_emulate_mode_sense: the alloc_len-byte buffer, the
current write offset (none once buf was set to NULL), and used_len. -/
structure MSState where
  buf : List Nat
  off : Option Nat
  used : Nat

/-- copy_to_response_buf (src/api.c:843-857): no-op on a NULL destination,
else writes min(to_len, from_len) bytes. -/
def copy_to_response_buf (buf : List Nat) (off : Option Nat) (to_len : Nat)
    (from_buf : List Nat) : List Nat :=
  match off with
  | none => buf
  | some o => listWrite buf o (from_buf.take to_len)

/-- The buf-NULLing step of handle_mode_sense (src/api.c:987-992): once
used_len + ret reaches alloc_len the buffer pointer goes NULL, else it
advances by ret. -/
def msNextOff (off : Option Nat) (used ret alloc_len : Nat) : Option Nat :=
  match off with
  | none => none
  | some o => if used + ret ≥ alloc_len then none else some (o + ret)

/-- handle_mode_sense (src/api.c:959-994): run one page handler; fail
(-EINVAL) for the 6-byte form when used_len + ret reaches 255; otherwise
accumulate used_len past any truncation so the final length field reflects
the untruncated total. -/
def handle_mode_sense (dev : ModeDev) (h : MSHandler) (st : MSState)
    (alloc_len : Nat) (sense_ten : Bool) : Option MSState :=
  let body := h.body dev
  let ret := body.length
  let buf1 := copy_to_response_buf st.buf st.off (alloc_len - st.used) body
  if sense_ten = false ∧ 255 ≤ st.used + ret then none
  else some ⟨buf1, msNextOff st.off st.used ret alloc_len, st.used + ret⟩

/-- The page-0x3f loop of tcmu_emulate_mode_sense (src/api.c:1145-1152):
iterate every registered handler in table order, aborting on error. -/
def run_mode_sense_handlers (dev : ModeDev) : List MSHandler → MSState →
    Nat → Bool → Option MSState
  | [], st, _, _ => some st
  | h :: rest, st, alloc_len, sense_ten =>
    match handle_mode_sense dev h st alloc_len sense_ten with
    | none => none
    | some st1 => run_mode_sense_handlers dev rest st1 alloc_len sense_ten

/-- handle_long_lba_block_descriptor (src/api.c:1006-1026). -/
def handle_long_lba_block_descriptor (dev : ModeDev) (buf : List Nat)
    (alloc_len : Nat) : Nat × List Nat :=
  let desc_len := 16
  let buf1 := listWrite buf 6 (be16Bytes desc_len)
  if 8 + desc_len > alloc_len then (desc_len, buf1)
  else
    let buf2 := listWrite buf1 8 (be64Bytes dev.numLbas)
    let buf3 := listWrite buf2 (8 + 12) (be32Bytes dev.blockSize)
    (desc_len, buf3)

/-- handle_short_lba_block_descriptor (src/api.c:1038-1073).  Note the source
writes the 24-bit block size at descriptor offset 6, so its last byte lands
one past the 8-byte descriptor; the clipping write models the boundary case
alloc_len = header_len + desc_len. -/
def handle_short_lba_block_descriptor (dev : ModeDev) (buf : List Nat)
    (alloc_len : Nat) (sense_ten : Bool) : Nat × List Nat :=
  let desc_len := 8
  let hb := if sense_ten then (8, listWrite buf 6 (be16Bytes desc_len))
            else (4, listWrite buf 3 [8])
  let header_len := hb.1
  let buf1 := hb.2
  if header_len + desc_len > alloc_len then (desc_len, buf1)
  else
    let lbas := if dev.numLbas < 2 ^ 32 then dev.numLbas else 0xffffffff
    let buf2 := listWrite buf1 header_len (be32Bytes lbas)
    let buf3 := listWrite buf2 (header_len + 6) (be24Bytes dev.blockSize)
    (desc_len, buf3)

/-- Result of tcmu_emulate_mode_sense: status, the assembled alloc_len-byte
buffer handed to tcmu_memcpy_into_iovec ([] on the no-data and error paths),
and the final used_len. -/
structure MSResult where
  status : TcmuStatus
  data : List Nat
  used : Nat
deriving DecidableEq, Repr

/-- The tail of tcmu_emulate_mode_sense (src/api.c:1171-1178): write the mode
data length (used_len - 2 big-endian for the 10-byte form, the single byte
used_len - 1 for the 6-byte form) into the header and return OK. -/
def mode_sense_finish (st : MSState) (sense_ten : Bool) : MSResult :=
  let data := if sense_ten then listWrite st.buf 0 (be16Bytes (st.used - 2))
              else listWrite st.buf 0 [(st.used - 1) % 256]
  ⟨TcmuStatus.OK, data, st.used⟩

/-- The header and block-descriptor part of tcmu_emulate_mode_sense
(src/api.c:1099-1142): reserve the header, append the block descriptor unless
DBD is set, then derive the page write pointer (NULL when the buffer is
already full). -/
def mode_sense_initial_state (dev : ModeDev) (sense_ten dbd llba : Bool)
    (alloc_len : Nat) : MSState :=
  let used0 : Nat := if sense_ten then 8 else 4
  let buf0 := List.replicate alloc_len 0
  let ub : Nat × List Nat :=
    if dbd then (used0, buf0)
    else if sense_ten ∧ llba then
      let r := handle_long_lba_block_descriptor dev buf0 alloc_len
      (used0 + r.1, r.2)
    else
      let r := handle_short_lba_block_descriptor dev buf0 alloc_len sense_ten
      (used0 + r.1, r.2)
  ⟨ub.2, if ub.1 < alloc_len then some ub.1 else none, ub.1⟩

/-- tcmu_emulate_mode_sense (src/api.c:1080-1184).  CDB-derived inputs:
sense_ten (opcode = MODE_SENSE_10), dbd (cdb[1] & 0x08), llba (cdb[1] & 0x10),
page_code (cdb[2] & 0x3f), subpage_code (cdb[3]), alloc_len. -/
def tcmu_emulate_mode_sense (dev : ModeDev) (sense_ten dbd llba : Bool)
    (page_code subpage_code alloc_len : Nat) : MSResult :=
  if alloc_len = 0 then ⟨TcmuStatus.OK, [], 0⟩
  else if (if sense_ten then 8 else 4) > alloc_len then
    ⟨TcmuStatus.INVALID_CDB, [], 0⟩
  else
    let st0 := mode_sense_initial_state dev sense_ten dbd llba alloc_len
    if page_code = 0x3f then
      match run_mode_sense_handlers dev modesense_handlers st0 alloc_len
          sense_ten with
      | none => ⟨TcmuStatus.INVALID_CDB, [], 0⟩
      | some st => mode_sense_finish st sense_ten
    else
      match modesense_handlers.find?
          (fun h => page_code == h.page && subpage_code == h.subpage) with
      | none => ⟨TcmuStatus.INVALID_CDB, [], 0⟩
      | some h =>
        match handle_mode_sense dev h st0 alloc_len sense_ten with
        | none => ⟨TcmuStatus.INVALID_CDB, [], 0⟩
        | some st =>
          if (h.body dev).length = 0 then ⟨TcmuStatus.INVALID_CDB, [], 0⟩
          else mode_sense_finish st sense_ten

lemma copy_to_response_buf_length (buf : List Nat) (off : Option Nat)
    (to_len : Nat) (from_buf : List Nat) :
    (copy_to_response_buf buf off to_len from_buf).length = buf.length := by
  cases off <;> simp [copy_to_response_buf, listWrite_length]

lemma handle_mode_sense_eq_some (dev : ModeDev) (h : MSHandler) (st : MSState)
    (alloc_len : Nat) (sense_ten : Bool)
    (hok : sense_ten = true ∨ st.used + (h.body dev).length < 255) :
    handle_mode_sense dev h st alloc_len sense_ten =
      some ⟨copy_to_response_buf st.buf st.off (alloc_len - st.used) (h.body dev),
            msNextOff st.off st.used (h.body dev).length alloc_len,
            st.used + (h.body dev).length⟩ := by
  simp only [handle_mode_sense]
  rw [if_neg]
  rintro ⟨hf, hge⟩
  rcases hok with h1 | h1
  · rw [h1] at hf; exact Bool.noConfusion hf
  · omega

lemma handle_mode_sense_none_iff (dev : ModeDev) (h : MSHandler) (st : MSState)
    (alloc_len : Nat) (sense_ten : Bool) :
    handle_mode_sense dev h st alloc_len sense_ten = none ↔
      (sense_ten = false ∧ 255 ≤ st.used + (h.body dev).length) := by
  simp only [handle_mode_sense]
  split
  · simp_all
  · simp_all

lemma handle_mode_sense_some_used (dev : ModeDev) (h : MSHandler) (st st' : MSState)
    (alloc_len : Nat) (sense_ten : Bool)
    (heq : handle_mode_sense dev h st alloc_len sense_ten = some st') :
    st'.used = st.used + (h.body dev).length ∧
    st'.buf.length = st.buf.length ∧
    (sense_ten = false → st'.used < 255) := by
  simp only [handle_mode_sense] at heq
  split at heq
  · exact absurd heq (by simp)
  · next hcond =>
    cases heq
    refine ⟨rfl, copy_to_response_buf_length _ _ _ _, ?_⟩
    intro hf
    by_contra hge
    dsimp only at hge
    exact hcond ⟨hf, by omega⟩

lemma run_handlers_spec (dev : ModeDev) (hs : List MSHandler) :
    ∀ st : MSState, ∀ alloc_len : Nat, ∀ sense_ten : Bool,
      (sense_ten = true ∨
        st.used + (hs.map (fun h => (h.body dev).length)).sum < 255) →
      ∃ st', run_mode_sense_handlers dev hs st alloc_len sense_ten = some st' ∧
        st'.used = st.used + (hs.map (fun h => (h.body dev).length)).sum ∧
        st'.buf.length = st.buf.length := by
  induction hs with
  | nil =>
    intro st alloc_len sense_ten _
    exact ⟨st, rfl, by simp, rfl⟩
  | cons h rest ih =>
    intro st alloc_len sense_ten hok
    have hstep := handle_mode_sense_eq_some dev h st alloc_len sense_ten
      (by rcases hok with h1 | h1
          · exact Or.inl h1
          · right
            simp only [List.map_cons, List.sum_cons] at h1
            have : 0 ≤ (rest.map (fun h => (h.body dev).length)).sum := Nat.zero_le _
            omega)
    obtain ⟨st', hrun, hused, hlen⟩ := ih
      ⟨copy_to_response_buf st.buf st.off (alloc_len - st.used) (h.body dev),
       msNextOff st.off st.used (h.body dev).length alloc_len,
       st.used + (h.body dev).length⟩ alloc_len sense_ten
      (by rcases hok with h1 | h1
          · exact Or.inl h1
          · right
            simp only [List.map_cons, List.sum_cons] at h1
            simp only []
            omega)
    refine ⟨st', ?_, ?_, ?_⟩
    · simp only [run_mode_sense_handlers, hstep]
      exact hrun
    · rw [hused]
      simp only [List.map_cons, List.sum_cons]
      omega
    · rw [hlen]
      exact copy_to_response_buf_length _ _ _ _

lemma modesense_handlers_total (dev : ModeDev) :
    (modesense_handlers.map (fun h => (h.body dev).length)).sum = 44 := rfl

lemma run_modesense_spec (dev : ModeDev) (st : MSState) (alloc_len : Nat)
    (sense_ten : Bool) (hok : sense_ten = true ∨ st.used + 44 < 255) :
    ∃ st', run_mode_sense_handlers dev modesense_handlers st alloc_len
        sense_ten = some st' ∧
      st'.used = st.used + 44 ∧ st'.buf.length = st.buf.length := by
  have h := run_handlers_spec dev modesense_handlers st alloc_len sense_ten
    (by rw [modesense_handlers_total]; exact hok)
  rwa [modesense_handlers_total] at h

lemma handle_short_lba_fst (dev : ModeDev) (buf : List Nat) (alloc_len : Nat)
    (sense_ten : Bool) :
    (handle_short_lba_block_descriptor dev buf alloc_len sense_ten).1 = 8 := by
  simp only [handle_short_lba_block_descriptor]
  split_ifs <;> rfl

lemma handle_short_lba_snd_length (dev : ModeDev) (buf : List Nat)
    (alloc_len : Nat) (sense_ten : Bool) :
    (handle_short_lba_block_descriptor dev buf alloc_len sense_ten).2.length =
      buf.length := by
  simp only [handle_short_lba_block_descriptor]
  split_ifs <;> simp [listWrite_length]

lemma handle_long_lba_fst (dev : ModeDev) (buf : List Nat) (alloc_len : Nat) :
    (handle_long_lba_block_descriptor dev buf alloc_len).1 = 16 := by
  simp only [handle_long_lba_block_descriptor]
  split_ifs <;> rfl

lemma handle_long_lba_snd_length (dev : ModeDev) (buf : List Nat)
    (alloc_len : Nat) :
    (handle_long_lba_block_descriptor dev buf alloc_len).2.length =
      buf.length := by
  simp only [handle_long_lba_block_descriptor]
  split_ifs <;> simp [listWrite_length]

lemma mode_sense_initial_state_used (dev : ModeDev) (sense_ten dbd llba : Bool)
    (alloc_len : Nat) :
    (mode_sense_initial_state dev sense_ten dbd llba alloc_len).used =
      (if sense_ten then 8 else 4) +
        (if dbd then 0 else if sense_ten ∧ llba then 16 else 8) := by
  simp only [mode_sense_initial_state]
  cases dbd with
  | true => simp
  | false =>
    by_cases hsl : sense_ten ∧ llba
    · simp [hsl, handle_long_lba_fst]
    · simp [hsl, handle_short_lba_fst]

lemma mode_sense_initial_state_buf_length (dev : ModeDev)
    (sense_ten dbd llba : Bool) (alloc_len : Nat) :
    (mode_sense_initial_state dev sense_ten dbd llba alloc_len).buf.length =
      alloc_len := by
  simp only [mode_sense_initial_state]
  cases dbd with
  | true => simp
  | false =>
    by_cases hsl : sense_ten ∧ llba
    · simp [hsl, handle_long_lba_snd_length]
    · simp [hsl, handle_short_lba_snd_length]

/-- Untruncated total length of a page-0x3f MODE SENSE response with block
descriptors enabled: header + block descriptor + the three page bodies
(12 + 20 + 12 = 44). -/
def msTotal (sense_ten llba : Bool) : Nat :=
  (if sense_ten then 8 else 4) + (if sense_ten ∧ llba then 16 else 8) + 44

/-- A concrete device: 512-byte blocks, 5 LBAs, write cache off. -/
def dev0 : ModeDev := ⟨512, 5, false⟩

lemma run_handlers_some_bound (dev : ModeDev) (hs : List MSHandler)
    (hne : hs ≠ []) :
    ∀ st alloc_len st',
      run_mode_sense_handlers dev hs st alloc_len false = some st' →
      st'.used < 255 := by
  induction hs with
  | nil => exact absurd rfl hne
  | cons h rest ih =>
    intro st alloc_len st' hrun
    simp only [run_mode_sense_handlers] at hrun
    cases hh : handle_mode_sense dev h st alloc_len false with
    | none => rw [hh] at hrun; exact absurd hrun (by simp)
    | some st1 =>
      rw [hh] at hrun
      cases rest with
      | nil =>
        simp only [run_mode_sense_handlers] at hrun
        cases hrun
        exact (handle_mode_sense_some_used dev h st st' alloc_len false hh).2.2 rfl
      | cons h2 r2 => exact ih (by simp) st1 alloc_len st' hrun

/-- C2, counterexample to the claim as stated: for the 6-byte form with page
0x3f and a nonzero allocation length (1) smaller than the full total (56),
tcmu_emulate_mode_sense does not return OK: an allocation length below the
4-byte header size takes the used_len > alloc_len failure path and returns
invalid-CDB (src/api.c:1100-1102). -/
theorem mode_sense_truncation_counterexample :
    0 < 1 ∧ 1 < msTotal false false ∧
    (tcmu_emulate_mode_sense dev0 false false false 0x3f 0 1).status ≠
      TcmuStatus.OK ∧
    (tcmu_emulate_mode_sense dev0 false false false 0x3f 0 1).status =
      TcmuStatus.INVALID_CDB := by decide

/-- C2 (amended): for every device and MODE SENSE CDB with page code 0x3f,
block descriptors enabled, and an allocation length at least the header size
(4 for the 6-byte form, 8 for the 10-byte form) but smaller than the full
concatenated header + block descriptor + all three registered mode pages,
tcmu_emulate_mode_sense returns OK, writes into the mode-data-length field
the full untruncated total minus the length field's own size (used_len - 1
for the 6-byte form, used_len - 2 big-endian for the 10-byte form), copies at
most the allocation length of bytes into the destination iovec, and every
registered handler still runs after the truncation point (the final used_len
equals the full untruncated total). -/
theorem mode_sense_truncation_amended (dev : ModeDev) (sense_ten llba : Bool)
    (subpage_code alloc_len : Nat)
    (h1 : (if sense_ten then 8 else 4) ≤ alloc_len)
    (h2 : alloc_len < msTotal sense_ten llba) :
    (tcmu_emulate_mode_sense dev sense_ten false llba 0x3f subpage_code
        alloc_len).status = TcmuStatus.OK ∧
    (tcmu_emulate_mode_sense dev sense_ten false llba 0x3f subpage_code
        alloc_len).used = msTotal sense_ten llba ∧
    (tcmu_emulate_mode_sense dev sense_ten false llba 0x3f subpage_code
        alloc_len).data.length = alloc_len ∧
    (sense_ten = true →
      (tcmu_emulate_mode_sense dev sense_ten false llba 0x3f subpage_code
          alloc_len).data.take 2 = be16Bytes (msTotal sense_ten llba - 2)) ∧
    (sense_ten = false →
      (tcmu_emulate_mode_sense dev sense_ten false llba 0x3f subpage_code
          alloc_len).data.take 1 = [(msTotal sense_ten llba - 1) % 256]) ∧
    (∀ iovec iov_cnt,
      (tcmu_memcpy_into_iovec iovec iov_cnt
        (tcmu_emulate_mode_sense dev sense_ten false llba 0x3f subpage_code
          alloc_len).data alloc_len).1 ≤ alloc_len) := by
  have h4 : 4 ≤ alloc_len := by
    by_cases hs : sense_ten = true <;> simp [hs] at h1 <;> omega
  have h0 : ¬(alloc_len = 0) := by omega
  have hng : ¬((if sense_ten then 8 else 4) > alloc_len) := by omega
  obtain ⟨st', hrun, hused, hlen⟩ := run_modesense_spec dev
    (mode_sense_initial_state dev sense_ten false llba alloc_len) alloc_len
    sense_ten
    (by cases sense_ten with
        | true => exact Or.inl rfl
        | false =>
          right
          have hu := mode_sense_initial_state_used dev false false llba alloc_len
          simp at hu
          omega)
  have hkey : tcmu_emulate_mode_sense dev sense_ten false llba 0x3f
      subpage_code alloc_len = mode_sense_finish st' sense_ten := by
    simp only [tcmu_emulate_mode_sense, hrun]
    rw [if_neg h0, if_neg hng]
    simp
  have husedTot : st'.used = msTotal sense_ten llba := by
    rw [hused, mode_sense_initial_state_used]
    simp [msTotal]
  have hbufLen : st'.buf.length = alloc_len := by
    rw [hlen, mode_sense_initial_state_buf_length]
  refine ⟨?_, ?_, ?_, ?_, ?_, ?_⟩
  · rw [hkey]
    cases sense_ten <;> rfl
  · rw [hkey]
    have : (mode_sense_finish st' sense_ten).used = st'.used := by
      cases sense_ten <;> rfl
    rw [this, husedTot]
  · rw [hkey]
    cases sense_ten <;>
      simp [mode_sense_finish, listWrite_length, hbufLen]
  · intro hs
    subst hs
    rw [hkey]
    have hdata : (mode_sense_finish st' true).data =
        listWrite st'.buf 0 (be16Bytes (st'.used - 2)) := rfl
    have hp := listWrite_zero_prefix st'.buf (be16Bytes (st'.used - 2))
      (by rw [show (be16Bytes (st'.used - 2)).length = 2 from rfl]
          omega)
    rw [show (be16Bytes (st'.used - 2)).length = 2 from rfl] at hp
    rw [hdata, hp, husedTot]
  · intro hs
    subst hs
    rw [hkey]
    have hdata : (mode_sense_finish st' false).data =
        listWrite st'.buf 0 [(st'.used - 1) % 256] := rfl
    have hp := listWrite_zero_prefix st'.buf [(st'.used - 1) % 256]
      (by rw [show ([(st'.used - 1) % 256]).length = 1 from rfl]
          omega)
    rw [show ([(st'.used - 1) % 256]).length = 1 from rfl] at hp
    rw [hdata, hp, husedTot]
  · intro iovec iov_cnt
    rw [tcmu_memcpy_into_iovec_copied]
    exact Nat.min_le_left _ _

/-- Witness for the amended C2 at a concrete truncating call (6-byte form,
allocation length 10 < 56). -/
theorem mode_sense_truncation_amended_witness :
    (tcmu_emulate_mode_sense dev0 false false false 0x3f 0 10).status =
      TcmuStatus.OK :=
  (mode_sense_truncation_amended dev0 false false 0 10 (by decide)
    (by decide)).1

/-- C8: for the 6-byte MODE SENSE form, handle_mode_sense fails exactly when
the accumulated total after running a page handler reaches or exceeds 255
(the check is used_len + ret >= 255, so a total of exactly 255 already
fails), and every succeeding 6-byte-form tcmu_emulate_mode_sense call has a
final assembled length strictly below 255, fitting the one-byte header
field. -/
theorem mode_sense_255_boundary :
    (∀ (dev : ModeDev) (h : MSHandler) (st : MSState) (alloc_len : Nat),
      handle_mode_sense dev h st alloc_len false = none ↔
        255 ≤ st.used + (h.body dev).length) ∧
    (∀ (dev : ModeDev) (dbd llba : Bool)
        (page_code subpage_code alloc_len : Nat),
      (tcmu_emulate_mode_sense dev false dbd llba page_code subpage_code
          alloc_len).status = TcmuStatus.OK →
      (tcmu_emulate_mode_sense dev false dbd llba page_code subpage_code
          alloc_len).used < 255) := by
  constructor
  · intro dev h st alloc_len
    rw [handle_mode_sense_none_iff]
    simp
  · intro dev dbd llba page_code subpage_code alloc_len
    have hle : (if (false : Bool) = true then (8 : Nat) else 4) = 4 := rfl
    simp only [tcmu_emulate_mode_sense, hle]
    split
    · intro _; decide
    · split
      · intro hOK; exact absurd hOK (by decide)
      · split
        · split
          · intro hOK; exact absurd hOK (by decide)
          · next st' heq =>
            intro _
            rw [show (mode_sense_finish st' false).used = st'.used from rfl]
            exact run_handlers_some_bound dev modesense_handlers
              (by simp [modesense_handlers]) _ alloc_len st' heq
        · split
          · intro hOK; exact absurd hOK (by decide)
          · next hh hfind =>
            split
            · intro hOK; exact absurd hOK (by decide)
            · next st heq =>
              split
              · intro hOK; exact absurd hOK (by decide)
              · intro _
                rw [show (mode_sense_finish st false).used = st.used from rfl]
                exact (handle_mode_sense_some_used dev hh _ st alloc_len false
                  heq).2.2 rfl

/-- Witness for C8: a state with 250 bytes already used plus the 12-byte
read-write-error-recovery body crosses 255, so the 6-byte-form step fails. -/
theorem mode_sense_255_boundary_witness :
    handle_mode_sense dev0 ⟨0x1, 0, fun _ => handle_rwrecovery_page⟩
      ⟨List.replicate 60 0, none, 250⟩ 60 false = none :=
  (mode_sense_255_boundary.1 dev0 ⟨0x1, 0, fun _ => handle_rwrecovery_page⟩
    ⟨List.replicate 60 0, none, 250⟩ 60).mpr (by decide)

/-- tcmu_emulate_mode_select (src/api.c:1191-1247).  CDB-derived inputs:
select_ten (opcode = MODE_SELECT_10), pf (cdb[1] & 0x10), sp (cdb[1] & 0x01),
page_code (cdb[2] & 0x3f), subpage_code (cdb[3]), alloc_len.  in_data is the
flat content of the source iovec (tcmu_memcpy_from_iovec fills in_buf with
its first min(512, total) bytes); junk models the uninitialized tail of the
512-byte in_buf stack array beyond the bytes actually read. -/
def tcmu_emulate_mode_select (dev : ModeDev) (select_ten pf sp : Bool)
    (page_code subpage_code alloc_len : Nat) (in_data : List Nat)
    (junk : Nat → Nat) : TcmuStatus :=
  let hdr_len : Nat := if select_ten then 8 else 4
  let in_buf : Nat → Nat := fun i =>
    if i < min 512 in_data.length then in_data.getD i 0 else junk i
  if alloc_len = 0 then TcmuStatus.OK
  else if 512 ≤ min 512 in_data.length then TcmuStatus.INVALID_PARAM_LIST_LEN
  else if pf = false ∨ sp = true then TcmuStatus.INVALID_CDB
  else
    match modesense_handlers.find?
        (fun x => page_code == x.page && subpage_code == x.subpage) with
    | none => TcmuStatus.INVALID_CDB
    | some h =>
      let ret := (h.body dev).length
      if ret = 0 then TcmuStatus.INVALID_CDB
      else if select_ten = false ∧ 255 ≤ hdr_len + ret then
        TcmuStatus.INVALID_CDB
      else if alloc_len < hdr_len + ret then TcmuStatus.INVALID_PARAM_LIST_LEN
      else if (List.range ret).map (fun k => in_buf (hdr_len + k)) ≠
          h.body dev then TcmuStatus.INVALID_PARAM_LIST
      else TcmuStatus.OK

lemma found_handler_body_length (dev : ModeDev) (page_code subpage_code : Nat)
    (h : MSHandler)
    (hfind : modesense_handlers.find?
      (fun x => page_code == x.page && subpage_code == x.subpage) = some h) :
    (h.body dev).length = 12 ∨ (h.body dev).length = 20 := by
  have hm := List.mem_of_find?_eq_some hfind
  simp [modesense_handlers] at hm
  rcases hm with rfl | rfl | rfl
  · left; rfl
  · right; rfl
  · left; rfl

/-- C3, counterexample to the claim as stated: a zero allocation length is
smaller than header length plus body length, yet tcmu_emulate_mode_select
returns OK immediately (src/api.c:1208-1209) instead of
invalid-parameter-list-length. -/
theorem mode_select_counterexample :
    tcmu_emulate_mode_select dev0 false true false 0x1 0 0
      (List.replicate 16 0) (fun _ => 0) = TcmuStatus.OK ∧
    (0 : Nat) < 4 + 12 ∧
    TcmuStatus.OK ≠ TcmuStatus.INVALID_PARAM_LIST_LEN :=
  ⟨rfl, by decide, by decide⟩

/-- C3 (amended): for every device and MODE SELECT CDB with the page-format
bit set, the save-pages bit clear, and a registered (page, subpage), provided
the parameter list read from the iovec totals fewer than 512 bytes (a total
of 512 or more is rejected as invalid-parameter-list-length up front) and
covers the compared byte range: with sufficient allocation length the call
returns OK if and only if the parameter-list bytes at the page's position are
byte-identical to the currently generated page body; any difference within
the ret-byte body yields invalid-parameter-list; and a nonzero allocation
length smaller than header length plus body length yields
invalid-parameter-list-length instead (a zero allocation length returns OK
immediately). -/
theorem mode_select_verify_amended (dev : ModeDev) (select_ten : Bool)
    (page_code subpage_code alloc_len : Nat) (in_data : List Nat)
    (junk : Nat → Nat) (h : MSHandler)
    (hfind : modesense_handlers.find?
      (fun x => page_code == x.page && subpage_code == x.subpage) = some h)
    (hlen : in_data.length < 512)
    (hcover : (if select_ten then 8 else 4) + (h.body dev).length ≤
      in_data.length) :
    ((if select_ten then 8 else 4) + (h.body dev).length ≤ alloc_len →
      (tcmu_emulate_mode_select dev select_ten true false page_code
          subpage_code alloc_len in_data junk = TcmuStatus.OK ↔
        (List.range (h.body dev).length).map
          (fun k => in_data.getD ((if select_ten then 8 else 4) + k) 0) =
          h.body dev)) ∧
    ((if select_ten then 8 else 4) + (h.body dev).length ≤ alloc_len →
      (List.range (h.body dev).length).map
        (fun k => in_data.getD ((if select_ten then 8 else 4) + k) 0) ≠
        h.body dev →
      tcmu_emulate_mode_select dev select_ten true false page_code
        subpage_code alloc_len in_data junk = TcmuStatus.INVALID_PARAM_LIST) ∧
    (0 < alloc_len →
      alloc_len < (if select_ten then 8 else 4) + (h.body dev).length →
      tcmu_emulate_mode_select dev select_ten true false page_code
        subpage_code alloc_len in_data junk =
        TcmuStatus.INVALID_PARAM_LIST_LEN) := by
  have hret := found_handler_body_length dev page_code subpage_code h hfind
  have hhdr4 : 4 ≤ (if select_ten then (8 : Nat) else 4) := by
    cases select_ten <;> simp
  have hhdr8 : (if select_ten then (8 : Nat) else 4) ≤ 8 := by
    cases select_ten <;> simp
  have hnot512 : ¬(512 ≤ min 512 in_data.length) := by omega
  have hretne : ¬((h.body dev).length = 0) := by omega
  have h255 : ¬(select_ten = false ∧
      255 ≤ (if select_ten then (8 : Nat) else 4) + (h.body dev).length) := by
    rintro ⟨hs, hc⟩
    omega
  have hpfsp : ¬((true = false) ∨ (false = true)) := by simp
  have hmapeq : (List.range ((h.body dev).length)).map
      (fun k => if ((if select_ten then (8 : Nat) else 4) + k) <
          min 512 in_data.length then
          in_data.getD ((if select_ten then 8 else 4) + k) 0
        else junk ((if select_ten then 8 else 4) + k)) =
      (List.range ((h.body dev).length)).map
        (fun k => in_data.getD ((if select_ten then 8 else 4) + k) 0) := by
    apply List.map_congr_left
    intro k hk
    have hk' := List.mem_range.mp hk
    have hcond : ((if select_ten then (8 : Nat) else 4) + k) <
        min 512 in_data.length := by omega
    rw [if_pos hcond]
  refine ⟨?_, ?_, ?_⟩
  · intro halloc
    have h0 : ¬(alloc_len = 0) := by omega
    have hnlt : ¬(alloc_len <
        (if select_ten then (8 : Nat) else 4) + (h.body dev).length) := by
      omega
    simp only [tcmu_emulate_mode_select, hfind]
    rw [if_neg h0, if_neg hnot512, if_neg hpfsp, if_neg hretne, if_neg h255,
      if_neg hnlt, hmapeq]
    by_cases hx : (List.range ((h.body dev).length)).map
        (fun k => in_data.getD ((if select_ten then 8 else 4) + k) 0) =
        h.body dev
    · rw [if_neg (not_not_intro hx)]
      exact ⟨fun _ => hx, fun _ => rfl⟩
    · rw [if_pos hx]
      constructor
      · intro hc; exact absurd hc (by decide)
      · intro hc; exact absurd hc hx
  · intro halloc hne
    have h0 : ¬(alloc_len = 0) := by omega
    have hnlt : ¬(alloc_len <
        (if select_ten then (8 : Nat) else 4) + (h.body dev).length) := by
      omega
    simp only [tcmu_emulate_mode_select, hfind]
    rw [if_neg h0, if_neg hnot512, if_neg hpfsp, if_neg hretne, if_neg h255,
      if_neg hnlt, hmapeq, if_pos hne]
  · intro hpos hlt
    have h0 : ¬(alloc_len = 0) := by omega
    simp only [tcmu_emulate_mode_select, hfind]
    rw [if_neg h0, if_neg hnot512, if_neg hpfsp, if_neg hretne, if_neg h255,
      if_pos hlt]

/-- Witness for the amended C3: a 6-byte MODE SELECT of page 0x1 whose
parameter list carries exactly the current read-write-error-recovery body at
offset 4 succeeds. -/
theorem mode_select_verify_amended_witness :
    tcmu_emulate_mode_select dev0 false true false 0x1 0 16
      (List.replicate 4 0 ++ handle_rwrecovery_page) (fun _ => 0) =
      TcmuStatus.OK :=
  ((mode_select_verify_amended dev0 false 0x1 0 16
      (List.replicate 4 0 ++ handle_rwrecovery_page) (fun _ => 0)
      ⟨0x1, 0, fun _ => handle_rwrecovery_page⟩ rfl (by decide)
      (by decide)).1 (by decide)).mpr (by decide)
